import Mathlib

set_option autoImplicit false

/-!
Shallow embedding of the `redisorm` repository (Go): the reply decoder
(`scan/mapper.go`), the filter-expression AST and compiler
(`query/expr.go`, `query/compile.go`), the group keys (`query/group.go`)
and the search/aggregate command builders (`query/builder.go`), together
with theorems settling the frozen claims about them.

Machine integers: Go `int64`/`int` are modelled as `Int` (no claim
exercises overflow). Go maps are modelled as association lists built by
`mapInsert` (later assignment to the same key overwrites). Go `strings`
functions are modelled over `String.data`; trimming covers the ASCII
whitespace characters of `unicode.IsSpace`. A Go runtime panic (index
out of range, negative `make` length) is modelled by the distinguished
outcome `DecRes.crash`, kept apart from an error value returned through
the `error` result (`DecRes.err`).
-/

namespace Redisorm

/-! ### Small string utilities shared by the packages -/

/-- ASCII whitespace recognised by Go `unicode.IsSpace`. -/
def isSpaceCh (c : Char) : Bool :=
  c = ' ' || c = '\t' || c = '\n' || c = '\x0b' || c = '\x0c' || c = '\r'

/-- Go `strings.TrimSpace` (ASCII fragment). -/
def trimSpace (s : String) : String :=
  String.mk (((s.data.dropWhile isSpaceCh).reverse.dropWhile isSpaceCh).reverse)

/-- Go `strings.HasPrefix p s`: byte-prefix test, modelled on char lists. -/
def goHasPfx (s pre : String) : Bool :=
  pre.data.isPrefixOf s.data

/-- ASCII lower-casing, used to model Go `strings.EqualFold`. -/
def asciiLower (s : String) : String :=
  String.mk (s.data.map (fun c =>
    if 'A' ≤ c && c ≤ 'Z' then Char.ofNat (c.toNat + 32) else c))

/-- Go `strings.EqualFold` (ASCII fragment). -/
def equalFold (a b : String) : Bool :=
  asciiLower a = asciiLower b

namespace Scan

/-- A decoded wire reply value: the dynamic Go `any` after the driver has
parsed the protocol. `int` is a Go `int64`, `arr` a `[]interface` slice and
`map` a string-keyed map (`map[interface]interface` keys are taken after
their string coercion, as `normalize`/`extractHits` perform in the source). -/
inductive RVal where
  | int (n : Int)
  | str (s : String)
  | arr (xs : List RVal)
  | map (entries : List (String × RVal))

/-- Outcome of a decoder call: a returned value, a returned Go `error`
(`err`), or a runtime panic (`crash`) such as an out-of-range index. -/
inductive DecRes (α : Type) where
  | ok (a : α)
  | err (msg : String)
  | crash (msg : String)
deriving DecidableEq

mutual

/-- Go `fmt.Sprint` on the reply values we model (default `%v` rendering);
only the slice/map fallback of `toStr` reaches the composite cases. -/
def sprint : RVal → String
  | .int n => toString n
  | .str s => s
  | .arr xs => "[" ++ sprintSeq xs ++ "]"
  | .map m => "map[" ++ sprintMapSeq m ++ "]"

def sprintSeq : List RVal → String
  | [] => ""
  | [x] => sprint x
  | x :: y :: xs => sprint x ++ " " ++ sprintSeq (y :: xs)

def sprintMapSeq : List (String × RVal) → String
  | [] => ""
  | [(k, v)] => k ++ ":" ++ sprint v
  | (k, v) :: e :: xs => k ++ ":" ++ sprint v ++ " " ++ sprintMapSeq (e :: xs)

end

/-- Model of `toStr` from `scan/mapper.go`: uniform trimmed stringification of a
scalar wire value. -/
def toStr : RVal → String
  | .str s => trimSpace s
  | .int n => toString n
  | v => trimSpace (sprint v)

/-- Model of `normalize` from `scan/mapper.go` on in-memory values: slices and maps
pass through (string-keying of generic maps is already reflected in `RVal`),
anything else is an unsupported reply type. -/
def normalize (raw : RVal) : DecRes RVal :=
  match raw with
  | .arr xs => .ok (.arr xs)
  | .map m => .ok (.map m)
  | _ => .err "scan: unsupported reply type"

/-- Go map lookup `m[k]` on the association-list model. -/
def lookupEntry : List (String × RVal) → String → Option RVal
  | [], _ => none
  | (k, v) :: rest, key => if k = key then some v else lookupEntry rest key

/-- One iteration of the RESP-3 hit loop in `extractHits`: a hit must be a
map; its payload is `extra_attributes` if present, else `values`, else the
hit itself. -/
def hitPayload (r : RVal) : DecRes RVal :=
  match r with
  | .map h =>
    match lookupEntry h "extra_attributes" with
    | some ea => .ok ea
    | none =>
      match lookupEntry h "values" with
      | some vs => .ok vs
      | none => .ok (.map h)
  | _ => .err "scan: unknown hit type"

/-- The RESP-3 hit loop of `extractHits`, stopping at the first bad hit. -/
def hitPayloads : List RVal → DecRes (List RVal)
  | [] => .ok []
  | r :: rs =>
    match hitPayload r with
    | .ok p =>
      match hitPayloads rs with
      | .ok ps => .ok (p :: ps)
      | .err e => .err e
      | .crash e => .crash e
    | .err e => .err e
    | .crash e => .crash e

/-- The RESP-2 hit loop of `extractHits`: `hits[i] = arr[i*2+2]` for
`i < total`; `none` when some index is out of range (a Go panic). -/
def gatherHits (arr : List RVal) (total : Nat) : Option (List RVal) :=
  (List.range total).mapM (fun i => arr.get? (i * 2 + 2))

/-- Model of `extractHits` from `scan/mapper.go`. RESP-3 branch: the `results` array
is mandatory and the total is the number of hits. RESP-2 branch: an empty
array yields zero hits; otherwise the first element must be an `int64`
count, and exactly `count` payload elements are read at indices `i*2+2`
(a negative count or an out-of-range index panics in Go: `crash`). -/
def extractHits (reply : RVal) : DecRes (Nat × List RVal) :=
  match reply with
  | .map top =>
    match lookupEntry top "results" with
    | some (.arr resultsRaw) =>
      match hitPayloads resultsRaw with
      | .ok hits => .ok (hits.length, hits)
      | .err e => .err e
      | .crash e => .crash e
    | _ => .err "scan: missing results array"
  | .arr arr =>
    match arr with
    | [] => .ok (0, [])
    | first :: _ =>
      match first with
      | .int count =>
        if count < 0 then .crash "makeslice: len out of range"
        else
          match gatherHits arr count.toNat with
          | some hits => .ok (count.toNat, hits)
          | none => .crash "runtime error: index out of range"
      | _ => .err "scan: first array element is not int64"
  | _ => .err "scan: unrecognised reply"

/-- Go map assignment `m[k] = v` on the association-list model: overwrite
the existing entry for `k`, else append a fresh one. -/
def mapInsert (m : List (String × String)) (k v : String) :
    List (String × String) :=
  if m.any (fun p => p.1 == k) then
    m.map (fun p => if p.1 == k then (k, v) else p)
  else m ++ [(k, v)]

/-- The pair walk of `toStrMap`'s slice case: indices `(0,1), (2,3), ...`
while `i+1 < len` — a trailing unpaired element is never read. -/
def kvPairs : List RVal → List (String × String)
  | a :: b :: rest => (toStr a, toStr b) :: kvPairs rest
  | _ => []

/-- Insert a pair list into an (initially empty) Go map. -/
def buildMap (ps : List (String × String)) : List (String × String) :=
  ps.foldl (fun m p => mapInsert m p.1 p.2) []

/-- Model of `toStrMap` from `scan/mapper.go`: a RESP-2 KV slice walks alternating
pairs; a map stringifies its values (keys of generic maps having been
string-coerced already); anything else is an unsupported KV payload. -/
def toStrMap (v : RVal) : DecRes (List (String × String)) :=
  match v with
  | .arr t => .ok (buildMap (kvPairs t))
  | .map t => .ok (buildMap (t.map (fun p => (p.1, toStr p.2))))
  | _ => .err "scan: unsupported kv type"

/-- The row loop shared by `DecodeMaps`/`DecodeSlice`: `toStrMap` on each
hit, failing on the first bad payload. -/
def decodeRows : List RVal → DecRes (List (List (String × String)))
  | [] => .ok []
  | h :: t =>
    match toStrMap h with
    | .ok m =>
      match decodeRows t with
      | .ok ms => .ok (m :: ms)
      | .err e => .err e
      | .crash e => .crash e
    | .err e => .err e
    | .crash e => .crash e

/-- Model of `DecodeMaps` from `scan/mapper.go`: normalize, extract hits, then map
each hit payload to a string row. The returned slice has exactly the
extracted `total` entries because `extractHits` always returns `total`
hits. -/
def DecodeMaps (raw : RVal) : DecRes (List (List (String × String))) :=
  match normalize raw with
  | .ok reply =>
    match extractHits reply with
    | .ok (_, hits) => decodeRows hits
    | .err e => .err e
    | .crash e => .crash e
  | .err e => .err e
  | .crash e => .crash e

/-! ### Typed assignment (`assign` in `scan/mapper.go`)

A target struct is modelled by its `redisorm`-tag metadata (`buildMeta`
output: field name and reflect kind) together with a parallel list of
current field values. The `Float32/Float64` branch is not modelled:
binary floating point has no faithful shallow embedding here; its control
flow is identical to the `Int` branch (parse, set on success, skip on
error) and no claim exercises it. -/

/-- Decimal digit run for `strconv.ParseInt`: at least one digit, digits
only. -/
def parseDigits (cs : List Char) : Option Nat :=
  match cs with
  | [] => none
  | _ =>
    if cs.all Char.isDigit then
      some (cs.foldl (fun n c => n * 10 + (c.toNat - '0'.toNat)) 0)
    else none

/-- Go `strconv.ParseInt(s, 10, 64)`: optional sign, a non-empty decimal
digit run, nothing else, and the value must fit in `int64` (Go reports a
range error, which the caller treats the same as a syntax error). -/
def parseInt64 (s : String) : Option Int :=
  let signed : Bool × List Char :=
    match s.data with
    | '-' :: rest => (true, rest)
    | '+' :: rest => (false, rest)
    | cs => (false, cs)
  match parseDigits signed.2 with
  | none => none
  | some n =>
    let v : Int := if signed.1 then -(n : Int) else (n : Int)
    if v < -(2 ^ 63) ∨ v > 2 ^ 63 - 1 then none else some v

/-- The reflect kinds the `assign` switch dispatches on (`Int/Int64/Int32`
collapsed to one model kind). -/
inductive Kind where
  | str
  | int
  | bool
deriving DecidableEq

/-- A current Go struct field value of one of the modelled kinds. -/
inductive FVal where
  | str (s : String)
  | int (n : Int)
  | bool (b : Bool)
deriving DecidableEq

/-- Model of `fieldMeta` from `scan/mapper.go` (the `index` path is replaced by
position in the metadata list). -/
structure FieldMeta where
  name : String
  kind : Kind

/-- Go map lookup `kv[name]` for the decoded row. -/
def lookupStr : List (String × String) → String → Option String
  | [], _ => none
  | (k, v) :: rest, key => if k = key then some v else lookupStr rest key

/-- The kind switch inside `assign`: strings are stored as-is; integers
are stored when `ParseInt` succeeds on the trimmed text and silently kept
at the current value otherwise; booleans compare against `"1"` or a
case-folded `"true"`. -/
def coerceField (kind : Kind) (cur : FVal) (s : String) : FVal :=
  match kind with
  | .str => .str s
  | .int =>
    match parseInt64 (trimSpace s) with
    | some n => .int n
    | none => cur
  | .bool => .bool (s == "1" || equalFold s "true")

/-- One field of the `assign` loop: fields absent from the row keep their
current value. -/
def assignField (kv : List (String × String)) (fm : FieldMeta) (cur : FVal) :
    FVal :=
  match lookupStr kv fm.name with
  | none => cur
  | some s => coerceField fm.kind cur s

/-- Model of `assign` from `scan/mapper.go` on the struct path: walk the cached
field metadata, update each declared field from the row, and always return
a nil error. -/
def assign (meta : List FieldMeta) (kv : List (String × String))
    (vals : List FVal) : DecRes (List FVal) :=
  .ok ((meta.zip vals).map (fun p => assignField kv p.1 p.2))

end Scan

namespace Query

/-- A Go scalar passed to the expression constructors (`any` in the
source; the claims use strings and integers, rendered by `fmt`'s `%v`). -/
inductive GoScalar where
  | str (s : String)
  | int (n : Int)

/-- Go `fmt` `%v` rendering of a scalar. -/
def sprintScalar : GoScalar → String
  | .str s => s
  | .int n => toString n

/-- The expression AST of `query/expr.go`. `eq`, `inSet`, `rng` are the
leaf predicates; `and`, `or`, `not` the combinators; `matchAll` the
wildcard sentinel. -/
inductive Expr where
  | eq (f : String) (v : GoScalar)
  | inSet (f : String) (vs : List GoScalar)
  | rng (f : String) (lo hi : GoScalar) (inc : Bool)
  | and (xs : List Expr)
  | or (xs : List Expr)
  | not (x : Expr)
  | matchAll

/-- Model of `field` from `query/expr.go`: prepend the `@` sigil when absent. -/
def field (f : String) : String :=
  if goHasPfx f "@" then f else "@" ++ f

/-- The value loop of `in.compile`: pipe separator before every element
after the first. -/
def joinScalars : List GoScalar → String
  | [] => ""
  | [v] => sprintScalar v
  | v :: w :: vs => sprintScalar v ++ "|" ++ joinScalars (w :: vs)

mutual

/-- Model of `Compile` from `query/compile.go` (the per-node `compile` methods
writing into one string builder). -/
def compile : Expr → String
  | .eq f v => field f ++ ":\x7b" ++ sprintScalar v ++ "\x7d"
  | .inSet f vs => field f ++ ":\x7b" ++ joinScalars vs ++ "\x7d"
  | .rng f lo hi inc =>
    field f ++ ":" ++ (if inc then "[" else "(") ++ sprintScalar lo ++
      " " ++ sprintScalar hi ++ (if inc then "]" else ")")
  | .and xs => "(" ++ compileSeq " " xs ++ ")"
  | .or xs => "(" ++ compileSeq "|" xs ++ ")"
  | .not x => "-(" ++ compile x ++ ")"
  | .matchAll => "*"

/-- The `group` helper of `query/compile.go`: separator before every
element after the first. -/
def compileSeq (sep : String) : List Expr → String
  | [] => ""
  | [x] => compile x
  | x :: y :: xs => compile x ++ sep ++ compileSeq sep (y :: xs)

end

/-- The Go interface comparison `b.where == MatchAll()`: true exactly when
the dynamic type is the empty `matchAll` struct (all other nodes are
pointers of different dynamic types, never equal to it). -/
def isMatchAll : Expr → Bool
  | .matchAll => true
  | _ => false

/-- Model of `GroupKey` from `query/group.go` (`alias` renamed `aliasStr`: `alias`
is a reserved word here). -/
structure GroupKey where
  raw : String
  aliasStr : String

/-- Model of `By` from `query/group.go`. -/
def By (f : String) : GroupKey :=
  if goHasPfx f "@" then ⟨f, ""⟩ else ⟨"@" ++ f, ""⟩

/-- Model of `ByExpr` from `query/group.go`. -/
def ByExpr (expr : String) : GroupKey := ⟨expr, ""⟩

/-- Model of `GroupKey.As` from `query/group.go`. -/
def GroupKey.As (g : GroupKey) (a : String) : GroupKey :=
  { g with aliasStr := a }

/-! ### Command builders (`query/builder.go`)

The `driver.Executor` boundary is a function from an argument vector to
an opaque reply or a Go error. Every argument the builders emit is a
string (`strconv.Itoa` for the numeric ones), so the vector is modelled
as `List String`. Both `RawArgs` methods return `(args, nil)` in Go; the
`Except` result mirrors that signature. -/

/-- The `driver.Executor.Do` capability. -/
def ExecFn : Type := List String → Except String Scan.RVal

/-- The query-string computation both `RawArgs` methods start with:
`b.where == nil || b.where == MatchAll()` gives `*`, anything else is the
compiled expression in one outer parenthesis group. -/
def queryArg (w : Option Expr) : String :=
  match w with
  | none => "*"
  | some e => if isMatchAll e then "*" else "(" ++ compile e ++ ")"

/-- Model of `SearchBuilder` from `query/builder.go` (`where` renamed `whereE`:
`where` is a reserved word here; `Dir` is a string type in the source). -/
structure SearchBuilder where
  idx : String
  whereE : Option Expr := none
  returnFields : List String := []
  sortField : String := ""
  dir : String := ""
  offset : Int := 0
  limit : Int := 0
  executor : Option ExecFn := none

/-- Model of `NewSearch` from `query/builder.go`. -/
def NewSearch (index : String) : SearchBuilder :=
  { idx := index, limit := 10000 }

/-- Model of `SearchBuilder.Where`. -/
def SearchBuilder.Where (b : SearchBuilder) (e : Expr) : SearchBuilder :=
  { b with whereE := some e }

/-- Model of `SearchBuilder.Select` (replaces the previous selection with a copy). -/
def SearchBuilder.Select (b : SearchBuilder) (fs : List String) :
    SearchBuilder :=
  { b with returnFields := fs }

/-- Model of `SearchBuilder.SortBy`. -/
def SearchBuilder.SortBy (b : SearchBuilder) (f d : String) : SearchBuilder :=
  { b with sortField := f, dir := d }

/-- Model of `SearchBuilder.Limit`. -/
def SearchBuilder.Limit (b : SearchBuilder) (off lim : Int) : SearchBuilder :=
  { b with offset := off, limit := lim }

/-- Model of `SearchBuilder.Using`. -/
def SearchBuilder.Using (b : SearchBuilder) (ex : ExecFn) : SearchBuilder :=
  { b with executor := some ex }

/-- Model of `SearchBuilder.RawArgs` from `query/builder.go`: command name, index,
query string, optional RETURN clause, optional SORTBY clause, LIMIT. -/
def SearchBuilder.RawArgs (b : SearchBuilder) : Except String (List String) :=
  let q := queryArg b.whereE
  let args := ["FT.SEARCH", b.idx, q]
  let args := if b.returnFields.length > 0 then
      (args ++ ["RETURN", toString b.returnFields.length]) ++ b.returnFields
    else args
  let args := if b.sortField ≠ "" then
      args ++ ["SORTBY", b.sortField, b.dir]
    else args
  .ok (args ++ ["LIMIT", toString b.offset, toString b.limit])

/-- Model of `SearchBuilder.Run` from `query/builder.go`: a missing executor is a
configuration error; otherwise build the args, dispatch, and decode. -/
def SearchBuilder.Run (b : SearchBuilder) :
    Scan.DecRes (List (List (String × String))) :=
  match b.executor with
  | none => .err "query: executor not set (call Using())"
  | some ex =>
    match b.RawArgs with
    | .error e => .err e
    | .ok args =>
      match ex args with
      | .error e => .err e
      | .ok raw => Scan.DecodeMaps raw

/-- Model of `reducer` from `query/builder.go` (`alias` renamed `aliasStr`:
`alias` is a reserved word here). -/
structure Reducer where
  fn : String
  field : String
  aliasStr : String

/-- Model of `AggregateBuilder` from `query/builder.go`. -/
structure AggregateBuilder where
  idx : String
  whereE : Option Expr := none
  groups : List GroupKey := []
  reducers : List Reducer := []
  offset : Int := 0
  limit : Int := 0
  executor : Option ExecFn := none

/-- Model of `NewAggregate` from `query/builder.go`. -/
def NewAggregate (index : String) : AggregateBuilder :=
  { idx := index, limit := 10000 }

/-- Model of `AggregateBuilder.Where`. -/
def AggregateBuilder.Where (b : AggregateBuilder) (e : Expr) :
    AggregateBuilder :=
  { b with whereE := some e }

/-- Model of `AggregateBuilder.GroupBy` (replaces the previous keys). -/
def AggregateBuilder.GroupBy (b : AggregateBuilder) (keys : List GroupKey) :
    AggregateBuilder :=
  { b with groups := keys }

/-- Model of `AggregateBuilder.Reduce`: append one reducer. -/
def AggregateBuilder.Reduce (b : AggregateBuilder) (fn f as : String) :
    AggregateBuilder :=
  { b with reducers := b.reducers ++ [{ fn := fn, field := f, aliasStr := as }] }

/-- Model of `AggregateBuilder.Limit`. -/
def AggregateBuilder.Limit (b : AggregateBuilder) (off lim : Int) :
    AggregateBuilder :=
  { b with offset := off, limit := lim }

/-- Model of `AggregateBuilder.Using`. -/
def AggregateBuilder.Using (b : AggregateBuilder) (ex : ExecFn) :
    AggregateBuilder :=
  { b with executor := some ex }

/-- Model of `AggregateBuilder.RawArgs` from `query/builder.go`: command name,
index, query string, GROUPBY clause, one REDUCE clause per reducer in call
order (COUNT case-insensitively takes arity 0 and no field, every other
function arity 1 and the `@`-prefixed field), then LIMIT. The two `for`
loops appending to `args` are folds. -/
def AggregateBuilder.RawArgs (b : AggregateBuilder) :
    Except String (List String) :=
  let q := queryArg b.whereE
  let args := ["FT.AGGREGATE", b.idx, q]
  let args := args ++ ["GROUPBY", toString b.groups.length]
  let args := b.groups.foldl (fun a g => a ++ [g.raw]) args
  let args := b.reducers.foldl (fun a r =>
    if equalFold r.fn "COUNT" then
      a ++ ["REDUCE", r.fn, "0", "AS", r.aliasStr]
    else a ++ ["REDUCE", r.fn, "1", "@" ++ r.field, "AS", r.aliasStr]) args
  .ok (args ++ ["LIMIT", toString b.offset, toString b.limit])

/-- Model of `AggregateBuilder.Run` from `query/builder.go`. -/
def AggregateBuilder.Run (b : AggregateBuilder) :
    Scan.DecRes (List (List (String × String))) :=
  match b.executor with
  | none => .err "query: executor not set (call Using())"
  | some ex =>
    match b.RawArgs with
    | .error e => .err e
    | .ok args =>
      match ex args with
      | .error e => .err e
      | .ok raw => Scan.DecodeMaps raw

/-- The REDUCE clause one reducer contributes, as §4.3 of the spec words
it: COUNT (case-insensitively) carries arity `0` and no field, every
other function arity `1` and one `@`-prefixed field. -/
def reduceClause (r : Reducer) : List String :=
  if equalFold r.fn "COUNT" then ["REDUCE", r.fn, "0", "AS", r.aliasStr]
  else ["REDUCE", r.fn, "1", "@" ++ r.field, "AS", r.aliasStr]

/-- The clauses a search builder emits after the query string. -/
def searchTail (b : SearchBuilder) : List String :=
  (if b.returnFields.length > 0 then
    ["RETURN", toString b.returnFields.length] ++ b.returnFields
   else []) ++
  (if b.sortField ≠ "" then ["SORTBY", b.sortField, b.dir] else []) ++
  ["LIMIT", toString b.offset, toString b.limit]

end Query

/-! ## Helper lemmas -/

namespace Query

theorem isMatchAll_iff (e : Expr) : isMatchAll e = true ↔ e = Expr.matchAll := by
  cases e <;> simp [isMatchAll]

theorem foldl_groups : ∀ (l : List GroupKey) (init : List String),
    l.foldl (fun a g => a ++ [g.raw]) init = init ++ l.map GroupKey.raw
  | [], init => by simp
  | g :: gs, init => by
    simp [List.foldl_cons, foldl_groups gs]

theorem foldl_reducers : ∀ (l : List Reducer) (init : List String),
    l.foldl (fun a r =>
      if equalFold r.fn "COUNT" then
        a ++ ["REDUCE", r.fn, "0", "AS", r.aliasStr]
      else a ++ ["REDUCE", r.fn, "1", "@" ++ r.field, "AS", r.aliasStr]) init
      = init ++ l.flatMap reduceClause
  | [], init => by simp
  | r :: rs, init => by
    by_cases h : equalFold r.fn "COUNT" <;>
      simp [List.foldl_cons, foldl_reducers rs, reduceClause, h]

/-- Model of `AggregateBuilder.RawArgs` in closed form: the two argument-appending
loops are one `GROUPBY` block and one REDUCE clause per reducer in call
order. -/
theorem aggRawArgs_eq (b : AggregateBuilder) :
    b.RawArgs = .ok
      (["FT.AGGREGATE", b.idx, queryArg b.whereE,
          "GROUPBY", toString b.groups.length]
        ++ b.groups.map GroupKey.raw
        ++ b.reducers.flatMap reduceClause
        ++ ["LIMIT", toString b.offset, toString b.limit]) := by
  simp only [AggregateBuilder.RawArgs, foldl_groups, foldl_reducers]
  simp

/-- Model of `SearchBuilder.RawArgs` in closed form. -/
theorem searchRawArgs_eq (b : SearchBuilder) :
    b.RawArgs =
      .ok (["FT.SEARCH", b.idx, queryArg b.whereE] ++ searchTail b) := by
  unfold SearchBuilder.RawArgs searchTail
  by_cases h1 : b.returnFields.length > 0 <;>
    by_cases h2 : b.sortField ≠ "" <;> simp [h1, h2]

theorem queryArg_wildcard (w : Option Expr)
    (h : w = none ∨ w = some Expr.matchAll) : queryArg w = "*" := by
  rcases h with h | h <;> subst h <;> simp [queryArg, isMatchAll]

theorem queryArg_compiled (e : Expr) (h : e ≠ Expr.matchAll) :
    queryArg (some e) = "(" ++ compile e ++ ")" := by
  have hm : isMatchAll e = false := by
    cases e <;> simp_all [isMatchAll]
  simp [queryArg, hm]

end Query

/-! ## Claims about the query builders and the compiler -/

namespace Query

/-- C4: in every aggregate argument vector, a reducer whose function name
is COUNT (case-insensitively) contributes exactly
`REDUCE <fn> 0 AS <alias>` (five arguments, no field), every other reducer
exactly `REDUCE <fn> 1 @<field> AS <alias>` (six arguments), and the
REDUCE groups appear in the order the `Reduce` calls were made; in
particular reducers `[COUNT as orders, SUM(qty) as total_qty]` yield
`REDUCE COUNT 0 AS orders` then `REDUCE SUM 1 @qty AS total_qty`. -/
theorem aggregate_reduce_serialization (b : AggregateBuilder) :
    b.RawArgs = .ok
      (["FT.AGGREGATE", b.idx, queryArg b.whereE,
          "GROUPBY", toString b.groups.length]
        ++ b.groups.map GroupKey.raw
        ++ b.reducers.flatMap (fun r =>
            if equalFold r.fn "COUNT" then
              ["REDUCE", r.fn, "0", "AS", r.aliasStr]
            else ["REDUCE", r.fn, "1", "@" ++ r.field, "AS", r.aliasStr])
        ++ ["LIMIT", toString b.offset, toString b.limit]) ∧
    (((NewAggregate "orders_idx").Reduce "COUNT" "" "orders").Reduce
        "SUM" "qty" "total_qty").RawArgs = .ok
      ["FT.AGGREGATE", "orders_idx", "*", "GROUPBY", "0",
        "REDUCE", "COUNT", "0", "AS", "orders",
        "REDUCE", "SUM", "1", "@qty", "AS", "total_qty",
        "LIMIT", "0", "10000"] :=
  ⟨aggRawArgs_eq b, by rfl⟩

/-- C5: for both builders the query-string argument (position 2 of the
vector) is `*` exactly when no filter was set or the filter is the
MatchAll sentinel, and otherwise the compiled filter wrapped in one outer
parenthesis group. -/
theorem query_string_wildcard (sb : SearchBuilder) (ab : AggregateBuilder) :
    ((sb.whereE = none ∨ sb.whereE = some Expr.matchAll) →
      ∃ rest, sb.RawArgs = .ok ("FT.SEARCH" :: sb.idx :: "*" :: rest)) ∧
    (∀ e, sb.whereE = some e → e ≠ Expr.matchAll →
      ∃ rest, sb.RawArgs =
        .ok ("FT.SEARCH" :: sb.idx :: ("(" ++ compile e ++ ")") :: rest)) ∧
    ((ab.whereE = none ∨ ab.whereE = some Expr.matchAll) →
      ∃ rest, ab.RawArgs = .ok ("FT.AGGREGATE" :: ab.idx :: "*" :: rest)) ∧
    (∀ e, ab.whereE = some e → e ≠ Expr.matchAll →
      ∃ rest, ab.RawArgs =
        .ok ("FT.AGGREGATE" :: ab.idx :: ("(" ++ compile e ++ ")") :: rest)) := by
  refine ⟨fun h => ⟨searchTail sb, ?_⟩, fun e he hne => ⟨searchTail sb, ?_⟩,
    fun h => ⟨"GROUPBY" :: toString ab.groups.length ::
      (ab.groups.map GroupKey.raw ++ ab.reducers.flatMap reduceClause
        ++ ["LIMIT", toString ab.offset, toString ab.limit]), ?_⟩,
    fun e he hne => ⟨"GROUPBY" :: toString ab.groups.length ::
      (ab.groups.map GroupKey.raw ++ ab.reducers.flatMap reduceClause
        ++ ["LIMIT", toString ab.offset, toString ab.limit]), ?_⟩⟩
  · rw [searchRawArgs_eq sb, queryArg_wildcard _ h]; rfl
  · rw [searchRawArgs_eq sb, he, queryArg_compiled e hne]; rfl
  · rw [aggRawArgs_eq ab, queryArg_wildcard _ h]; rfl
  · rw [aggRawArgs_eq ab, he, queryArg_compiled e hne]; rfl

/-- C5 witness: concrete builders for each side of the default. -/
theorem query_string_wildcard_witness :
    (∃ rest, (NewSearch "i").RawArgs =
      .ok ("FT.SEARCH" :: "i" :: "*" :: rest)) ∧
    (∃ rest,
      ((NewAggregate "i").Where (.eq "status" (.str "P"))).RawArgs =
        .ok ("FT.AGGREGATE" :: "i" ::
          ("(" ++ compile (.eq "status" (.str "P")) ++ ")") :: rest)) := by
  constructor
  · exact (query_string_wildcard (NewSearch "i") (NewAggregate "i")).1
      (Or.inl rfl)
  · exact (query_string_wildcard (NewSearch "i")
        ((NewAggregate "i").Where (.eq "status" (.str "P")))).2.2.2
      (.eq "status" (.str "P")) rfl (fun h => Expr.noConfusion h)

/-- C6: `And` compiles to its parts space-joined in one parenthesis
group, `Or` the same with the pipe separator, `Not` to `-(...)`, and
nested combinators compose recursively with no flattening. -/
theorem combinator_grammar (a b x : Expr) :
    compile (.and [a, b]) = "(" ++ compile a ++ " " ++ compile b ++ ")" ∧
    compile (.or [a, b]) = "(" ++ compile a ++ "|" ++ compile b ++ ")" ∧
    compile (.not x) = "-(" ++ compile x ++ ")" ∧
    compile (.and [.and [a, b], x]) =
      "(" ++ compile (.and [a, b]) ++ " " ++ compile x ++ ")" ∧
    compile (.or [x, .or [a, b]]) =
      "(" ++ compile x ++ "|" ++ compile (.or [a, b]) ++ ")" := by
  refine ⟨?_, ?_, ?_, ?_, ?_⟩ <;>
    simp [compile, compileSeq, String.append_assoc]

/-- C7: an equality predicate compiles to exactly `@f:\x7bv\x7d`, the `@`
sigil being prepended only when `f` does not already start with it, and
field normalization is idempotent. -/
theorem eq_compile_and_sigil (f : String) (v : GoScalar) :
    compile (.eq f v) =
      (if goHasPfx f "@" then f else "@" ++ f) ++
        ":\x7b" ++ sprintScalar v ++ "\x7d" ∧
    field (field f) = field f := by
  constructor
  · simp [compile, field]
  · by_cases h : goHasPfx f "@"
    · simp [field, h]
    · have hp : goHasPfx ("@" ++ f) "@" = true := by
        have hd : ("@" ++ f).data = '@' :: f.data := rfl
        simp [goHasPfx, hd, List.isPrefixOf]
      simp [field, h, hp]

/-- C8: `Run` on a builder with no bound executor returns the
configuration error immediately (it is a returned error value, not a
panic), while `RawArgs` always succeeds, so the argument vector can be
inspected without executing. -/
theorem run_requires_executor (sb : SearchBuilder) (ab : AggregateBuilder)
    (h1 : sb.executor = none) (h2 : ab.executor = none) :
    sb.Run = .err "query: executor not set (call Using())" ∧
    ab.Run = .err "query: executor not set (call Using())" ∧
    (∀ b : SearchBuilder, ∃ args, b.RawArgs = .ok args) ∧
    (∀ b : AggregateBuilder, ∃ args, b.RawArgs = .ok args) := by
  refine ⟨?_, ?_, ?_, ?_⟩
  · unfold SearchBuilder.Run; rw [h1]
  · unfold AggregateBuilder.Run; rw [h2]
  · exact fun b => ⟨_, searchRawArgs_eq b⟩
  · exact fun b => ⟨_, aggRawArgs_eq b⟩

/-- C8 witness: a freshly constructed builder has no executor. -/
theorem run_requires_executor_witness :
    (NewSearch "idx").Run = .err "query: executor not set (call Using())" ∧
    (NewAggregate "idx").Run =
      .err "query: executor not set (call Using())" := by
  have h := run_requires_executor (NewSearch "idx") (NewAggregate "idx")
    rfl rfl
  exact ⟨h.1, h.2.1⟩

end Query

/-! ## Claims about the reply decoder -/

namespace Scan

theorem kvPairs_length : ∀ xs : List RVal,
    (kvPairs xs).length = xs.length / 2
  | [] => by simp [kvPairs]
  | [a] => by simp [kvPairs]
  | a :: b :: rest => by
    simp [kvPairs, kvPairs_length rest]
    omega

theorem mapInsert_length_le (m : List (String × String)) (k v : String) :
    (mapInsert m k v).length ≤ m.length + 1 := by
  unfold mapInsert
  by_cases h : m.any (fun p => p.1 == k) <;> simp [h]

theorem foldl_mapInsert_le :
    ∀ (ps : List (String × String)) (m : List (String × String)),
      (ps.foldl (fun m' p => mapInsert m' p.1 p.2) m).length ≤
        m.length + ps.length
  | [], m => by simp
  | p :: ps, m => by
    have h1 := foldl_mapInsert_le ps (mapInsert m p.1 p.2)
    have h2 := mapInsert_length_le m p.1 p.2
    simp [List.foldl_cons] at h1 ⊢
    omega

theorem kvPairs_dropLast : ∀ xs : List RVal, xs.length % 2 = 1 →
    kvPairs xs = kvPairs xs.dropLast
  | [], h => by simp at h
  | [a], _ => by simp [kvPairs]
  | [a, b], h => by simp at h
  | a :: b :: c :: rest, h => by
    have hr : (c :: rest).length % 2 = 1 := by
      simp [List.length_cons] at h ⊢
      omega
    have ih := kvPairs_dropLast (c :: rest) hr
    show kvPairs (a :: b :: c :: rest) =
      kvPairs (a :: b :: (c :: rest).dropLast)
    simp [kvPairs, ih]

/-- C1: the legacy array branch of the decoder trusts the leading count
element. A count larger than the pairs present makes the Go code index
out of range (a panic, not a decode error); a count smaller than the
pairs present silently drops the trailing rows, and the reported total is
the count element, not the number of rows present — the claimed safety
contract fails on both sides. -/
theorem legacy_count_mismatch :
    DecodeMaps (.arr [.int 3, .str "doc:1", .arr [.str "a", .str "b"]]) =
      .crash "runtime error: index out of range" ∧
    DecodeMaps (.arr [.int 1, .str "doc:1", .arr [.str "a", .str "b"],
      .str "doc:2", .arr [.str "c", .str "d"]]) = .ok [[("a", "b")]] ∧
    extractHits (.arr [.int 1, .str "doc:1", .arr [.str "a", .str "b"],
      .str "doc:2", .arr [.str "c", .str "d"]]) =
      .ok (1, [.arr [.str "a", .str "b"]]) :=
  ⟨rfl, rfl, rfl⟩

/-- C2: the two round-trip examples of §8 of the spec: the legacy-array
reply decodes to its two rows in order, the keyed-map reply to its one
row. -/
theorem decode_roundtrip :
    DecodeMaps (.arr [.int 2, .str "doc:1",
      .arr [.str "status", .str "PENDING"], .str "doc:2",
      .arr [.str "status", .str "SHIPPED"]]) =
      .ok [[("status", "PENDING")], [("status", "SHIPPED")]] ∧
    DecodeMaps (.map [("results",
      .arr [.map [("extra_attributes", .map [("qty", .str "3")])]])]) =
      .ok [[("qty", "3")]] :=
  ⟨rfl, rfl⟩

/-- C3 counterexample: on the empty array — a reply with no leading count
element at all — decoding returns an empty row collection successfully
instead of failing with a decode error. -/
theorem empty_array_decodes : DecodeMaps (.arr []) = .ok [] := rfl

/-- C3 amended: for every NON-empty array-shape reply whose first element
is not a 64-bit integer, decoding fails with the decode error naming the
offending shape; the empty array instead succeeds with zero rows. -/
theorem nonint_count_error (v : RVal) (xs : List RVal)
    (h : ∀ n : Int, v ≠ .int n) :
    DecodeMaps (.arr (v :: xs)) =
      .err "scan: first array element is not int64" := by
  cases v with
  | int n => exact absurd rfl (h n)
  | str s => rfl
  | arr l => rfl
  | map m => rfl

/-- C3 amended witness: a string in count position is a decode error. -/
theorem nonint_count_error_witness :
    DecodeMaps (.arr [.str "x"]) =
      .err "scan: first array element is not int64" :=
  nonint_count_error (.str "x") [] (fun _ h => RVal.noConfusion h)

/-- C9: typed assignment is best-effort: `qty = "7"` parses into the
declared integer field, `qty = "abc"` leaves it at its zero value, and
assignment never returns an error for any metadata, row and field
values. -/
theorem typed_assignment_best_effort :
    assign [⟨"qty", .int⟩] [("qty", "7")] [.int 0] = .ok [.int 7] ∧
    assign [⟨"qty", .int⟩] [("qty", "abc")] [.int 0] = .ok [.int 0] ∧
    ∀ (meta : List FieldMeta) (kv : List (String × String))
      (vals : List FVal), ∃ out, assign meta kv vals = .ok out :=
  ⟨rfl, rfl, fun _ _ _ => ⟨_, rfl⟩⟩

/-- C10 counterexample: the flat KV payload `[a, 1, a, 2]` has 4 elements
but its decoded mapping has 1 entry, not `4 / 2 = 2`: later values for a
duplicate key overwrite the earlier entry. -/
theorem duplicate_keys_collapse :
    toStrMap (.arr [.str "a", .str "1", .str "a", .str "2"]) =
      .ok [("a", "2")] ∧
    ([("a", "2")] : List (String × String)).length ≠
      ([.str "a", .str "1", .str "a", .str "2"] : List RVal).length / 2 :=
  ⟨rfl, by decide⟩

/-- C10 amended: decoding a flat KV payload always succeeds, keeps only
the complete key/value pairs — a trailing unpaired element of an
odd-length payload is ignored — and the mapping has AT MOST
`len(xs) / 2` entries (fewer when later pairs repeat a key). -/
theorem odd_kv_payload (xs : List RVal) :
    (∃ m, toStrMap (.arr xs) = .ok m ∧ m.length ≤ xs.length / 2) ∧
    (xs.length % 2 = 1 →
      toStrMap (.arr xs) = toStrMap (.arr xs.dropLast)) := by
  constructor
  · refine ⟨buildMap (kvPairs xs), rfl, ?_⟩
    have h1 := foldl_mapInsert_le (kvPairs xs) []
    simp only [List.length_nil, Nat.zero_add] at h1
    have h2 := kvPairs_length xs
    simp only [buildMap]
    omega
  · intro h
    simp [toStrMap, kvPairs_dropLast xs h]

/-- C10 amended witness: a 3-element payload decodes like its first
complete pair. -/
theorem odd_kv_payload_witness :
    toStrMap (.arr [.str "a", .str "1", .str "x"]) =
      toStrMap (.arr [.str "a", .str "1"]) ∧
    (∃ m, toStrMap (.arr [.str "a", .str "1", .str "x"]) = .ok m ∧
      m.length ≤ 1) := by
  have h := odd_kv_payload [.str "a", .str "1", .str "x"]
  exact ⟨h.2 rfl, h.1⟩

end Scan

end Redisorm

